import Mathlib

/-!
Verification of the hours-logging timer state machine of `loghours`
(`src/loghours/src/state.rs`, `LogState`; `src/loghours/src/loopstate.rs`
holds a field-for-field identical copy named `State`, so every theorem
below about `LogState` settles the corresponding statement for both).

The embedding is shallow: `tokio::time::Instant` values become rational
numbers of seconds on a monotonic clock, and every method that reads the
clock takes the current instant `now : ℚ` as an explicit argument.
`Duration::as_secs_f64() / 3600.0` becomes exact division by 3600 over ℚ;
`Duration::as_secs() / 60` becomes the floor of the elapsed seconds
followed by natural-number division by 60.  `Instant::elapsed` saturates
at zero when the instant lies in the future, hence the `max _ 0`.
-/

namespace LogHours

/-- The `LogState` struct of `state.rs`: pause flag, running flag, the
anchor instant `start_time`, and the banked totals `hours` and `minutes`. -/
structure LogState where
  paused : Bool
  running : Bool
  start_time : ℚ
  hours : ℚ
  minutes : ℕ
  deriving DecidableEq, Repr

namespace LogState

/-- `LogState::new`, with the construction instant `t` passed explicitly
(the Rust code calls `Instant::now()` there). -/
def new (t : ℚ) : LogState :=
  { paused := false, running := false, start_time := t, hours := 0, minutes := 0 }

/-- Seconds elapsed since `start_time`, saturating at zero
(`self.start_time.elapsed()`). -/
def elapsed_secs (s : LogState) (now : ℚ) : ℚ :=
  max (now - s.start_time) 0

/-- `LogState::get_hours_since_start_time`. -/
def get_hours_since_start_time (s : LogState) (now : ℚ) : ℚ :=
  if s.running then s.elapsed_secs now / 3600 else 0

/-- `LogState::get_minutes_since_start_time`. -/
def get_minutes_since_start_time (s : LogState) (now : ℚ) : ℕ :=
  if s.running then (⌊s.elapsed_secs now⌋).toNat / 60 else 0

/-- `LogState::update_time`: bank the interval since the anchor into the
`hours` and `minutes` totals. -/
def update_time (s : LogState) (now : ℚ) : LogState :=
  { s with
    hours := s.hours + s.get_hours_since_start_time now
    minutes := s.minutes + s.get_minutes_since_start_time now }

/-- `LogState::reset_start_time`: move the anchor to the current instant. -/
def reset_start_time (s : LogState) (now : ℚ) : LogState :=
  { s with start_time := now }

/-- `LogState::toggle_pause`. -/
def toggle_pause (s : LogState) (now : ℚ) : LogState :=
  if s.running then
    let s1 := { s with paused := !s.paused }
    if s1.paused then s1.update_time now else s1.reset_start_time now
  else s

/-- `LogState::pause`. -/
def pause (s : LogState) (now : ℚ) : LogState :=
  if s.running && !s.paused then { s.update_time now with paused := true } else s

/-- `LogState::resume`. -/
def resume (s : LogState) (now : ℚ) : LogState :=
  if s.paused then { s.reset_start_time now with paused := false } else s

/-- `LogState::start`.  The Rust method only sets `running`; it takes no
clock reading and leaves `start_time` untouched, which is why this
embedding has no `now` argument. -/
def start (s : LogState) : LogState :=
  { s with running := true }

/-- `LogState::quit`. -/
def quit (s : LogState) (now : ℚ) : LogState :=
  { (if !s.paused then s.update_time now else s) with running := false }

/-- `LogState::is_paused`. -/
def is_paused (s : LogState) : Bool := s.paused

/-- `LogState::is_running`. -/
def is_running (s : LogState) : Bool := s.running

/-- `LogState::get_total_hours`. -/
def get_total_hours (s : LogState) (now : ℚ) : ℚ :=
  if !s.paused then s.hours + s.get_hours_since_start_time now else s.hours

/-- `LogState::get_total_minutes`. -/
def get_total_minutes (s : LogState) (now : ℚ) : ℕ :=
  if !s.paused then s.minutes + s.get_minutes_since_start_time now else s.minutes

end LogState

/-- The messages the epilogue of `log_hours` (`main.rs`) can print. -/
inductive LogMsg where
  | hoursLogged
  | noHoursLogged
  deriving DecidableEq, Repr

/-- A write handed to the persistence sink by `log_hours`: a line appended
to a file (`util::write_file`) or a row inserted into the database
(`db::add_entry`). -/
inductive SinkWrite where
  | toFile (filename : String) (hours : ℚ)
  | toDb (job : String) (hours : ℚ)
  deriving DecidableEq, Repr

/-- The epilogue of `log_hours` (`main.rs` lines 239-255): after the loop
exits, read the final total and either log it (message plus at most one
sink write) or report that no hours were logged.  The f64 literal `0.01`
is embedded as the rational `1/100`. -/
def log_hours_epilogue (hours : ℚ) (filename : Option String)
    (job_name : Option String) : LogMsg × Option SinkWrite :=
  if hours ≥ 1/100 then
    (LogMsg.hoursLogged,
      match filename with
      | some f => some (SinkWrite.toFile f hours)
      | none =>
        match job_name with
        | some job => some (SinkWrite.toDb job hours)
        | none => none)
  else
    (LogMsg.noHoursLogged, none)

open LogState

/-- C1: the spec claims `start()` sets the anchor (`start_time`) to the
current time.  The code's `start` only sets `running`; the anchor keeps
the value given at construction, so a state constructed at instant 0 and
started at instant 100 reports `100/3600` total hours at instant 100 even
though no logging happened before the start — contradicting the field's
own doc comment ("Time logging started or was resumed after being
paused"). -/
theorem start_keeps_stale_anchor :
    ((LogState.new 0).start).start_time = 0 ∧
    ((LogState.new 0).start).get_total_hours 100 = 100 / 3600 := by
  constructor
  · rfl
  · simp [LogState.new, LogState.start, LogState.get_total_hours,
      LogState.get_hours_since_start_time, LogState.elapsed_secs]

/-- C3: from any `Active` state (running and not paused), `pause` adds the
elapsed-since-anchor duration to the banked hours exactly once, and a
second consecutive `pause` changes nothing. -/
theorem pause_twice_banks_once (s : LogState) (n₁ n₂ : ℚ)
    (hr : s.running = true) (hp : s.paused = false) (h : s.start_time ≤ n₁) :
    (s.pause n₁).hours = s.hours + (n₁ - s.start_time) / 3600 ∧
    (s.pause n₁).pause n₂ = s.pause n₁ := by
  obtain ⟨p, r, st, h0, m0⟩ := s
  subst hr hp
  have hmax : max (n₁ - st) 0 = n₁ - st := max_eq_left (by simpa using h)
  constructor
  · simp [LogState.pause, LogState.update_time,
      LogState.get_hours_since_start_time, LogState.elapsed_secs, hmax]
  · simp [LogState.pause, LogState.update_time,
      LogState.get_hours_since_start_time, LogState.get_minutes_since_start_time]

/-- Witness for `pause_twice_banks_once` at the Active state
`⟨paused := false, running := true, start_time := 0, hours := 2, minutes := 3⟩`
with the two pauses at instants 7200 and 9000. -/
theorem pause_twice_banks_once_witness :
    (LogState.pause ⟨false, true, 0, 2, 3⟩ 7200).hours = 2 + (7200 - 0) / 3600 ∧
    (LogState.pause ⟨false, true, 0, 2, 3⟩ 7200).pause 9000 =
      LogState.pause ⟨false, true, 0, 2, 3⟩ 7200 :=
  pause_twice_banks_once ⟨false, true, 0, 2, 3⟩ 7200 9000 rfl rfl (by norm_num)

/-- C4: `quit` from an `Active` state banks the in-progress interval into
the hours total exactly once, and a second `quit` afterwards changes
nothing at all. -/
theorem quit_banks_once_idempotent (s : LogState) (n₁ n₂ : ℚ)
    (hr : s.running = true) (hp : s.paused = false) (h : s.start_time ≤ n₁) :
    (s.quit n₁).hours = s.hours + (n₁ - s.start_time) / 3600 ∧
    (s.quit n₁).quit n₂ = s.quit n₁ := by
  obtain ⟨p, r, st, h0, m0⟩ := s
  subst hr hp
  have hmax : max (n₁ - st) 0 = n₁ - st := max_eq_left (by simpa using h)
  constructor
  · simp [LogState.quit, LogState.update_time,
      LogState.get_hours_since_start_time, LogState.elapsed_secs, hmax]
  · simp [LogState.quit, LogState.update_time,
      LogState.get_hours_since_start_time, LogState.get_minutes_since_start_time]

/-- Witness for `quit_banks_once_idempotent` at the Active state
`⟨false, true, 0, 1, 0⟩` with quits at instants 3600 and 4000. -/
theorem quit_banks_once_idempotent_witness :
    (LogState.quit ⟨false, true, 0, 1, 0⟩ 3600).hours = 1 + (3600 - 0) / 3600 ∧
    (LogState.quit ⟨false, true, 0, 1, 0⟩ 3600).quit 4000 =
      LogState.quit ⟨false, true, 0, 1, 0⟩ 3600 :=
  quit_banks_once_idempotent ⟨false, true, 0, 1, 0⟩ 3600 4000 rfl rfl (by norm_num)

/-- C10: `quit` in a `Paused` state (running and paused) only clears the
running flag; the hours and minutes totals, the pause flag and the anchor
are all left untouched, because the interval was already banked by the
preceding `pause`. -/
theorem quit_while_paused_banks_nothing (s : LogState) (now : ℚ)
    (_hr : s.running = true) (hp : s.paused = true) :
    s.quit now = { s with running := false } := by
  simp [LogState.quit, hp]

/-- Witness for `quit_while_paused_banks_nothing` at the Paused state
`⟨true, true, 5, 2, 7⟩` with the quit at instant 9. -/
theorem quit_while_paused_banks_nothing_witness :
    LogState.quit ⟨true, true, 5, 2, 7⟩ 9 =
      { (⟨true, true, 5, 2, 7⟩ : LogState) with running := false } :=
  quit_while_paused_banks_nothing ⟨true, true, 5, 2, 7⟩ 9 rfl rfl

/-- C2 counterexample: the Stopped state is not terminal.  Starting at
instant 0 and quitting at instant 1 reaches a Stopped state; applying
`start` to it sets `running` back to true, so the state changes. -/
theorem stopped_not_terminal_cex :
    (((LogState.new 0).start.quit 1).start ≠ (LogState.new 0).start.quit 1) ∧
    ((LogState.new 0).start.quit 1).running = false := by
  constructor
  · intro h
    have hrun := congrArg LogState.running h
    simp [LogState.new, LogState.start, LogState.quit, LogState.update_time,
      LogState.get_hours_since_start_time, LogState.get_minutes_since_start_time,
      LogState.elapsed_secs] at hrun
  · simp [LogState.new, LogState.start, LogState.quit, LogState.update_time,
      LogState.get_hours_since_start_time, LogState.get_minutes_since_start_time,
      LogState.elapsed_secs]

/-- C2 amended: in any state with the running flag cleared, `pause`,
`toggle_pause` and `quit` leave the state unchanged, but `start` sets
`running` back to true, and `resume` — guarded only by the `paused` flag —
still clears `paused` and moves the anchor whenever the quit happened
from a paused state. -/
theorem stopped_state_transitions (s : LogState) (now : ℚ)
    (h : s.running = false) :
    s.pause now = s ∧ s.toggle_pause now = s ∧ s.quit now = s ∧
    s.start = { s with running := true } ∧
    s.resume now =
      (if s.paused then { s with paused := false, start_time := now } else s) := by
  obtain ⟨p, r, st, h0, m0⟩ := s
  subst h
  refine ⟨?_, ?_, ?_, ?_, ?_⟩
  · simp [LogState.pause]
  · simp [LogState.toggle_pause]
  · simp [LogState.quit, LogState.update_time,
      LogState.get_hours_since_start_time, LogState.get_minutes_since_start_time]
  · simp [LogState.start]
  · cases p <;>
      simp [LogState.resume, LogState.reset_start_time]

/-- Witness for `stopped_state_transitions` at the Stopped-while-paused
state `⟨true, false, 3, 2, 1⟩` with operations at instant 7. -/
theorem stopped_state_transitions_witness :
    LogState.pause ⟨true, false, 3, 2, 1⟩ 7 = ⟨true, false, 3, 2, 1⟩ ∧
    LogState.toggle_pause ⟨true, false, 3, 2, 1⟩ 7 = ⟨true, false, 3, 2, 1⟩ ∧
    LogState.quit ⟨true, false, 3, 2, 1⟩ 7 = ⟨true, false, 3, 2, 1⟩ ∧
    LogState.start ⟨true, false, 3, 2, 1⟩ =
      { (⟨true, false, 3, 2, 1⟩ : LogState) with running := true } ∧
    LogState.resume ⟨true, false, 3, 2, 1⟩ 7 =
      (if (⟨true, false, 3, 2, 1⟩ : LogState).paused then
        { (⟨true, false, 3, 2, 1⟩ : LogState) with paused := false, start_time := 7 }
       else ⟨true, false, 3, 2, 1⟩) :=
  stopped_state_transitions ⟨true, false, 3, 2, 1⟩ 7 rfl

/-- C5: `get_total_hours` returns the banked hours when paused or not
running, and the banked hours plus the elapsed-since-anchor duration when
active.  The embedded getter is a pure function of the state and the
clock — the Rust body performs no assignment — so repeated calls at a
fixed `now` with no intervening mutation trivially agree. -/
theorem get_total_hours_pure_read (s : LogState) (now : ℚ)
    (h : s.start_time ≤ now) :
    s.get_total_hours now =
      (if s.running = true ∧ s.paused = false then
        s.hours + (now - s.start_time) / 3600
       else s.hours) := by
  obtain ⟨p, r, st, h0, m0⟩ := s
  have hmax : max (now - st) 0 = now - st := max_eq_left (by simpa using h)
  cases p <;> cases r <;>
    simp [LogState.get_total_hours, LogState.get_hours_since_start_time,
      LogState.elapsed_secs, hmax]

/-- Witness for `get_total_hours_pure_read` at the Active state
`⟨false, true, 0, 1, 0⟩` queried at instant 3600. -/
theorem get_total_hours_pure_read_witness :
    LogState.get_total_hours ⟨false, true, 0, 1, 0⟩ 3600 =
      (if (⟨false, true, 0, 1, 0⟩ : LogState).running = true ∧
          (⟨false, true, 0, 1, 0⟩ : LogState).paused = false then
        1 + (3600 - 0) / 3600
       else 1) :=
  get_total_hours_pure_read ⟨false, true, 0, 1, 0⟩ 3600 (by norm_num)

/-- C6 counterexample: not every operation is a no-op outside its valid
source state.  `resume`'s valid source state is `Paused` (running and
paused), but in the state `⟨paused := true, running := false, ...⟩` —
reachable by quitting while paused — `resume` still clears `paused` and
moves the anchor, changing the state. -/
theorem resume_outside_paused_cex :
    (LogState.resume ⟨true, false, 0, 0, 0⟩ 5 ≠ ⟨true, false, 0, 0, 0⟩) ∧
    (⟨true, false, 0, 0, 0⟩ : LogState).running = false := by
  refine ⟨?_, rfl⟩
  intro h
  have hp := congrArg LogState.paused h
  simp [LogState.resume, LogState.reset_start_time] at hp

/-- C6 amended: every operation is a total function — in the embedding by
construction, as in the Rust methods, which return on every path.
`pause` and `toggle_pause` are no-ops outside their valid source states,
`start` is a no-op when already running, `resume` is a no-op exactly when
`paused` is clear (even when not running), and `toggle_pause` in the
never-started state is a no-op with total elapsed hours 0. -/
theorem ops_total_noop_guards (s : LogState) (now : ℚ) :
    (s.running = false → s.toggle_pause now = s) ∧
    (s.running = false → s.pause now = s) ∧
    (s.paused = true → s.pause now = s) ∧
    (s.paused = false → s.resume now = s) ∧
    (s.running = true → s.start = s) ∧
    (∀ t n₂ : ℚ, ((LogState.new t).toggle_pause now).get_total_hours n₂ = 0) := by
  obtain ⟨p, r, st, h0, m0⟩ := s
  refine ⟨?_, ?_, ?_, ?_, ?_, ?_⟩
  · intro h; subst h; simp [LogState.toggle_pause]
  · intro h; subst h; simp [LogState.pause]
  · intro h; subst h; simp [LogState.pause]
  · intro h; subst h; simp [LogState.resume]
  · intro h; subst h; simp [LogState.start]
  · intro t n₂
    simp [LogState.new, LogState.toggle_pause, LogState.get_total_hours,
      LogState.get_hours_since_start_time]

/-- Witness for `ops_total_noop_guards`, discharging each guard at a
concrete state: the never-started state for the no-op guards, an Active
state for the `start` guard. -/
theorem ops_total_noop_guards_witness :
    LogState.toggle_pause ⟨false, false, 0, 0, 0⟩ 5 = ⟨false, false, 0, 0, 0⟩ ∧
    LogState.pause ⟨false, false, 0, 0, 0⟩ 5 = ⟨false, false, 0, 0, 0⟩ ∧
    LogState.pause ⟨true, true, 0, 0, 0⟩ 5 = ⟨true, true, 0, 0, 0⟩ ∧
    LogState.resume ⟨false, false, 0, 0, 0⟩ 5 = ⟨false, false, 0, 0, 0⟩ ∧
    LogState.start ⟨false, true, 0, 0, 0⟩ = ⟨false, true, 0, 0, 0⟩ ∧
    ((LogState.new 0).toggle_pause 5).get_total_hours 9 = 0 :=
  ⟨(ops_total_noop_guards ⟨false, false, 0, 0, 0⟩ 5).1 rfl,
   (ops_total_noop_guards ⟨false, false, 0, 0, 0⟩ 5).2.1 rfl,
   (ops_total_noop_guards ⟨true, true, 0, 0, 0⟩ 5).2.2.1 rfl,
   (ops_total_noop_guards ⟨false, false, 0, 0, 0⟩ 5).2.2.2.1 rfl,
   (ops_total_noop_guards ⟨false, true, 0, 0, 0⟩ 5).2.2.2.2.1 rfl,
   (ops_total_noop_guards ⟨false, false, 0, 0, 0⟩ 5).2.2.2.2.2 0 9⟩

/-- C7: `toggle_pause` agrees extensionally with `pause` from Active
states, with `resume` from Paused states, and is the identity when not
running. -/
theorem toggle_pause_equiv (s : LogState) (now : ℚ) :
    (s.running = true → s.paused = false → s.toggle_pause now = s.pause now) ∧
    (s.running = true → s.paused = true → s.toggle_pause now = s.resume now) ∧
    (s.running = false → s.toggle_pause now = s) := by
  obtain ⟨p, r, st, h0, m0⟩ := s
  refine ⟨?_, ?_, ?_⟩
  · intro hr hp; subst hr hp
    simp [LogState.toggle_pause, LogState.pause, LogState.update_time,
      LogState.get_hours_since_start_time, LogState.get_minutes_since_start_time,
      LogState.elapsed_secs]
  · intro hr hp; subst hr hp
    simp [LogState.toggle_pause, LogState.resume, LogState.reset_start_time]
  · intro hr; subst hr
    simp [LogState.toggle_pause]

/-- Witness for `toggle_pause_equiv` at an Active state, a Paused state,
and a not-running state, all at instant 5. -/
theorem toggle_pause_equiv_witness :
    LogState.toggle_pause ⟨false, true, 0, 2, 3⟩ 5 =
      LogState.pause ⟨false, true, 0, 2, 3⟩ 5 ∧
    LogState.toggle_pause ⟨true, true, 0, 2, 3⟩ 5 =
      LogState.resume ⟨true, true, 0, 2, 3⟩ 5 ∧
    LogState.toggle_pause ⟨false, false, 0, 2, 3⟩ 5 = ⟨false, false, 0, 2, 3⟩ :=
  ⟨(toggle_pause_equiv ⟨false, true, 0, 2, 3⟩ 5).1 rfl rfl,
   (toggle_pause_equiv ⟨true, true, 0, 2, 3⟩ 5).2.1 rfl rfl,
   (toggle_pause_equiv ⟨false, false, 0, 2, 3⟩ 5).2.2 rfl⟩

/-- C8: at session-loop exit, provided a sink destination is configured —
`main` only calls `log_hours` when an output file or a job name is given —
the final total is handed to the persistence sink exactly when it is at
least the `0.01`-hour threshold, in which case "Hours logged" is printed;
below the threshold the session prints "No hours logged" and writes
nothing. -/
theorem epilogue_threshold (hours : ℚ) (filename job_name : Option String)
    (h : filename.isSome ∨ job_name.isSome) :
    ((log_hours_epilogue hours filename job_name).2.isSome ↔ 1/100 ≤ hours) ∧
    (1/100 ≤ hours →
      (log_hours_epilogue hours filename job_name).1 = LogMsg.hoursLogged) ∧
    (hours < 1/100 →
      (log_hours_epilogue hours filename job_name).1 = LogMsg.noHoursLogged ∧
      (log_hours_epilogue hours filename job_name).2 = none) := by
  unfold log_hours_epilogue
  by_cases hge : (1:ℚ)/100 ≤ hours
  · have hge' : (100:ℚ)⁻¹ ≤ hours := by rwa [one_div] at hge
    have hnlt : ¬hours < 1/100 := not_lt.mpr hge
    rcases filename with _ | f
    · rcases job_name with _ | j
      · simp at h
      · simp [hge, hge', hnlt]
    · simp [hge, hge', hnlt]
  · have hge' : ¬(100:ℚ)⁻¹ ≤ hours := by rwa [one_div] at hge
    have hlt : hours < 1/100 := not_le.mp hge
    simp [hge, hge', hlt]

/-- Witness for `epilogue_threshold` with an output file configured and a
total of `2` hours, above the threshold. -/
theorem epilogue_threshold_witness :
    ((log_hours_epilogue 2 (some "hours.txt") none).2.isSome ↔ (1:ℚ)/100 ≤ 2) ∧
    ((1:ℚ)/100 ≤ 2 →
      (log_hours_epilogue 2 (some "hours.txt") none).1 = LogMsg.hoursLogged) ∧
    ((2:ℚ) < 1/100 →
      (log_hours_epilogue 2 (some "hours.txt") none).1 = LogMsg.noHoursLogged ∧
      (log_hours_epilogue 2 (some "hours.txt") none).2 = none) :=
  epilogue_threshold 2 (some "hours.txt") none (Or.inl rfl)

end LogHours
